import Mathlib

/-
Verification of the request admission and credential lifecycle layer of the
messaging server: rate limiting, bearer-token guarding, role authorization,
context identity accessors, OTP issuance and verification, error envelopes,
and the health endpoint. Definitions are shallow embeddings of the Go source;
time is modelled in seconds as Nat, Go maps as functions into Option.
-/

/-- Embedding of the Go helper http.StatusText, restricted to the status codes
reachable from the call sites in this repository; unknown codes map to the
empty string exactly as in Go. -/
def statusText (code : Nat) : String :=
  if code = 200 then "OK"
  else if code = 400 then "Bad Request"
  else if code = 401 then "Unauthorized"
  else if code = 403 then "Forbidden"
  else if code = 404 then "Not Found"
  else if code = 415 then "Unsupported Media Type"
  else if code = 429 then "Too Many Requests"
  else if code = 500 then "Internal Server Error"
  else ""

/-- Embedding of ErrorResponse from the primary middleware package: the JSON
error envelope with fields error, message (omitempty) and code. -/
structure ErrorResponse where
  error : String
  message : String
  code : Nat
deriving DecidableEq

/-- Embedding of respondError from the primary middleware package: builds the
error envelope whose error field is the standard status text, whose message is
the given human-readable text, and whose code equals the HTTP status written
to the response. -/
def respondError (status : Nat) (message : String) : ErrorResponse :=
  ⟨statusText status, message, status⟩

/-- Result of running one middleware layer: either an error envelope was
written and the wrapped handler was not invoked, or control proceeds to the
wrapped handler carrying a value of type a. -/
inductive HandlerResult (a : Type) where
  | errorResp : ErrorResponse → HandlerResult a
  | next : a → HandlerResult a
deriving DecidableEq

/-- Embedding of the per-client bucket of RateLimitMiddleware: the client
struct with a request count and the time of the last counter reset. -/
structure RLClient where
  requests : Nat
  lastReset : Nat
deriving DecidableEq

/-- The clients map of RateLimitMiddleware, keyed by remote address. -/
abbrev RLState := String → Option RLClient

/-- The initial empty clients map. -/
def rlEmpty : RLState := fun _ => none

/-- Lookup-or-create step of RateLimitMiddleware: a missing client is created
with zero requests and lastReset set to the current time. -/
def bucketOf (st : RLState) (now : Nat) (ip : String) : RLClient :=
  match st ip with
  | some c => c
  | none => ⟨0, now⟩

/-- Window reset step of RateLimitMiddleware: if strictly more than one
minute (60 seconds) has passed since lastReset, the count is reset to zero
and lastReset to the current time. -/
def resetIfElapsed (now : Nat) (c : RLClient) : RLClient :=
  if now - c.lastReset > 60 then ⟨0, now⟩ else c

/-- One invocation of the handler produced by RateLimitMiddleware for a
request from the given ip at the given time: look up or create the bucket,
reset it if the window elapsed, then reject with no increment when the count
has reached the limit, and otherwise increment and admit. Returns the
admission decision and the updated clients map. -/
def rateLimitStep (limit now : Nat) (ip : String) (st : RLState) : Bool × RLState :=
  let c := resetIfElapsed now (bucketOf st now ip)
  if c.requests ≥ limit then
    (false, fun k2 => if k2 = ip then some c else st k2)
  else
    (true, fun k2 => if k2 = ip then some ⟨c.requests + 1, c.lastReset⟩ else st k2)

/-- The error envelope written by RateLimitMiddleware on rejection. -/
def rateLimitError : ErrorResponse :=
  respondError 429 "Rate limit exceeded. Please try again later."

/-- Sequential execution of rateLimitStep over a list of request times for a
fixed client, threading the clients map. -/
def admitRun (limit : Nat) (ip : String) : List Nat → RLState → List Bool × RLState
  | [], st => ([], st)
  | t :: ts, st =>
    let p := rateLimitStep limit t ip st
    let q := admitRun limit ip ts p.2
    (p.1 :: q.1, q.2)

theorem rateLimitStep_admit (limit now : Nat) (ip : String) (st : RLState) (k t0 : Nat)
    (hst : st ip = some ⟨k, t0⟩) (hwin : now - t0 ≤ 60) (hk : k < limit) :
    rateLimitStep limit now ip st =
      (true, fun k2 => if k2 = ip then some ⟨k + 1, t0⟩ else st k2) := by
  simp only [rateLimitStep, bucketOf, resetIfElapsed, hst]
  rw [if_neg (by omega : ¬ now - t0 > 60), if_neg (by omega : ¬ k ≥ limit)]

theorem rateLimitStep_reject (limit now : Nat) (ip : String) (st : RLState) (k t0 : Nat)
    (hst : st ip = some ⟨k, t0⟩) (hwin : now - t0 ≤ 60) (hk : k ≥ limit) :
    rateLimitStep limit now ip st =
      (false, fun k2 => if k2 = ip then some ⟨k, t0⟩ else st k2) := by
  simp only [rateLimitStep, bucketOf, resetIfElapsed, hst]
  rw [if_neg (by omega : ¬ now - t0 > 60), if_pos hk]

theorem rateLimitStep_reset (limit now : Nat) (ip : String) (st : RLState) (k t0 : Nat)
    (hst : st ip = some ⟨k, t0⟩) (hwin : now - t0 > 60) (hl : 0 < limit) :
    rateLimitStep limit now ip st =
      (true, fun k2 => if k2 = ip then some ⟨1, now⟩ else st k2) := by
  simp only [rateLimitStep, bucketOf, resetIfElapsed, hst]
  rw [if_pos hwin]
  simp only []
  rw [if_neg (by omega : ¬ (0 : Nat) ≥ limit)]

theorem rateLimitStep_create (limit now : Nat) (ip : String) (st : RLState)
    (hst : st ip = none) (hl : 0 < limit) :
    rateLimitStep limit now ip st =
      (true, fun k2 => if k2 = ip then some ⟨1, now⟩ else st k2) := by
  simp only [rateLimitStep, bucketOf, resetIfElapsed, hst]
  rw [if_neg (by omega : ¬ now - now > 60), if_neg (by omega : ¬ (0 : Nat) ≥ limit)]

theorem admitRun_invariant (limit : Nat) (ip : String) (t0 : Nat) (ts : List Nat) :
    ∀ (st : RLState) (k : Nat), st ip = some ⟨k, t0⟩ →
    (∀ t ∈ ts, t - t0 ≤ 60) → k + ts.length ≤ limit →
    (admitRun limit ip ts st).1 = List.replicate ts.length true ∧
    (admitRun limit ip ts st).2 ip = some ⟨k + ts.length, t0⟩ := by
  induction ts with
  | nil => intro st k hst _ _; simpa [admitRun] using hst
  | cons t ts ih =>
    intro st k hst hwin hk
    have hstep := rateLimitStep_admit limit t ip st k t0 hst
      (hwin t (List.mem_cons_self t ts)) (by simp at hk; omega)
    have hnext : (rateLimitStep limit t ip st).2 ip = some ⟨k + 1, t0⟩ := by
      rw [hstep]; simp
    have hrec := ih (rateLimitStep limit t ip st).2 (k + 1) hnext
      (fun u hu => hwin u (List.mem_cons_of_mem t hu)) (by simp at hk ⊢; omega)
    have h1 : (rateLimitStep limit t ip st).1 = true := by rw [hstep]
    constructor
    · simp only [admitRun]
      rw [h1, hrec.1, List.length_cons]
      rfl
    · simp only [admitRun]
      rw [hrec.2, List.length_cons]
      have h2 : k + 1 + ts.length = k + (ts.length + 1) := by omega
      rw [h2]

/-- C1: the rate limiter implements the fixed-window counter policy. For any
client, any positive limit and any sequence of limit requests whose first
request at time t0 opens the window and whose later requests stay within 60
seconds of t0, every one of the limit requests is admitted; a further request
inside the same window is rejected with the 429 envelope and without
incrementing the counter; and a request strictly more than one minute after
the window start is admitted again with a fresh count of one and a new window
start. -/
theorem rateLimit_fixed_window (limit : Nat) (ip : String) (t0 : Nat) (ts : List Nat)
    (hl : 0 < limit) (hlen : ts.length + 1 = limit)
    (hwin : ∀ t ∈ ts, t - t0 ≤ 60) :
    (admitRun limit ip (t0 :: ts) rlEmpty).1 = List.replicate limit true ∧
    (∀ t3, t3 - t0 ≤ 60 →
      rateLimitStep limit t3 ip (admitRun limit ip (t0 :: ts) rlEmpty).2 =
        (false, fun k2 => if k2 = ip then some ⟨limit, t0⟩
                          else (admitRun limit ip (t0 :: ts) rlEmpty).2 k2)) ∧
    (∀ t4, t4 - t0 > 60 →
      rateLimitStep limit t4 ip (admitRun limit ip (t0 :: ts) rlEmpty).2 =
        (true, fun k2 => if k2 = ip then some ⟨1, t4⟩
                         else (admitRun limit ip (t0 :: ts) rlEmpty).2 k2)) := by
  have hfirst := rateLimitStep_create limit t0 ip rlEmpty rfl hl
  have hone : (rateLimitStep limit t0 ip rlEmpty).2 ip = some ⟨1, t0⟩ := by
    rw [hfirst]; simp
  have hrec := admitRun_invariant limit ip t0 ts (rateLimitStep limit t0 ip rlEmpty).2 1
    hone hwin (by omega)
  have hfin : (admitRun limit ip (t0 :: ts) rlEmpty).2 ip = some ⟨limit, t0⟩ := by
    simp only [admitRun]
    rw [hrec.2]
    have h2 : 1 + ts.length = limit := by omega
    rw [h2]
  refine ⟨?_, ?_, ?_⟩
  · have h1 : (rateLimitStep limit t0 ip rlEmpty).1 = true := by rw [hfirst]
    simp only [admitRun]
    rw [h1, hrec.1, ← hlen]
    rfl
  · intro t3 h3
    exact rateLimitStep_reject limit t3 ip _ limit t0 hfin h3 (Nat.le_refl limit)
  · intro t4 h4
    exact rateLimitStep_reset limit t4 ip _ limit t0 hfin h4 hl

/-- Concrete instantiation of the fixed-window theorem: limit 3, requests at
times 0, 2 and 5 all admitted, a fourth request at time 10 rejected with the
count left at 3, and a request at time 61 admitted with a fresh count. -/
theorem rateLimit_fixed_window_witness :
    (admitRun 3 "1.2.3.4" (0 :: [2, 5]) rlEmpty).1 = List.replicate 3 true ∧
    (rateLimitStep 3 10 "1.2.3.4" (admitRun 3 "1.2.3.4" (0 :: [2, 5]) rlEmpty).2).1 = false ∧
    (rateLimitStep 3 61 "1.2.3.4" (admitRun 3 "1.2.3.4" (0 :: [2, 5]) rlEmpty).2).1 = true := by
  have h := rateLimit_fixed_window 3 "1.2.3.4" 0 [2, 5] (by decide) (by decide) (by decide)
  refine ⟨h.1, ?_, ?_⟩
  · rw [h.2.1 10 (by decide)]
  · rw [h.2.2 61 (by decide)]

/-- Embedding of OtpPurpose from the mailer package: the closed set of
purposes an OTP can be issued for. -/
inductive OtpPurpose where
  | login
  | password_reset
  | verification
  | registration
deriving DecidableEq

/-- Embedding of OTPData from the mailer package: the stored record holding
the code, the absolute expiry time, and the purpose. -/
structure OTPData where
  code : String
  expiresAt : Nat
  purpose : OtpPurpose
deriving DecidableEq

/-- Modelled from the spec: the function GetOTPExpirationDuration of the
mailer package is documented but its body is not under src, so the
purpose-to-duration table is modelled after the spec, which requires only
that the mapping be total over the closed purpose set, with login codes
short-lived and registration and verification codes longer-lived. Durations
are in seconds. -/
def otpExpiry : OtpPurpose → Nat
  | OtpPurpose.login => 300
  | OtpPurpose.password_reset => 600
  | OtpPurpose.verification => 900
  | OtpPurpose.registration => 900

/-- Modelled from the spec: the in-memory OTP record store keyed by the
identity and purpose pair; the store implementation is not under src. A
function into Option makes the at-most-one-active-record-per-pair invariant
hold by construction, as the spec requires. -/
abbrev OTPStore := String × OtpPurpose → Option OTPData

/-- The empty OTP store. -/
def otpEmpty : OTPStore := fun _ => none

/-- Modelled from the spec: Issue stores or overwrites the active record for
the pair with a record whose expiry is the issue time plus the duration for
the purpose; the generated code is passed in explicitly. -/
def issueOTP (st : OTPStore) (email : String) (p : OtpPurpose) (code : String)
    (now : Nat) : OTPStore :=
  fun k => if k = (email, p) then some ⟨code, now + otpExpiry p, p⟩ else st k

/-- The four outcomes of OTP verification. -/
inductive VerificationResult where
  | Valid
  | Expired
  | Invalid
  | NotFound
deriving DecidableEq

/-- Modelled from the spec: Verify reports NotFound when no record exists for
the pair, Expired when the current time is strictly past the expiry even if
the code matches, Invalid when an unexpired record exists but the code
differs, and Valid on an exact match strictly before expiry; the record is
logically destroyed on a successful verification and on an expiry check.
Returns the result together with the updated store. -/
def verifyOTP (st : OTPStore) (now : Nat) (email : String) (p : OtpPurpose)
    (code : String) : VerificationResult × OTPStore :=
  match st (email, p) with
  | none => (VerificationResult.NotFound, st)
  | some r0 =>
    if now > r0.expiresAt then
      (VerificationResult.Expired, fun k => if k = (email, p) then none else st k)
    else if code = r0.code then
      (VerificationResult.Valid, fun k => if k = (email, p) then none else st k)
    else
      (VerificationResult.Invalid, st)

/-- C2: OTP verification returns exactly one of the four outcomes, by the
documented case analysis: NotFound when no record exists for the pair,
Expired when the current time is strictly past the expiry even on a code
match, Invalid when an unexpired record exists but the code differs, Valid
only on an exact match at or before expiry; and on Valid the record is
consumed, so an immediately subsequent Verify for the same pair and code,
at any later time, reports NotFound. -/
theorem otp_verify_cases (st : OTPStore) (now : Nat) (email : String) (p : OtpPurpose)
    (code : String) :
    (st (email, p) = none → (verifyOTP st now email p code).1 = VerificationResult.NotFound) ∧
    (∀ r0, st (email, p) = some r0 →
      (now > r0.expiresAt → (verifyOTP st now email p code).1 = VerificationResult.Expired) ∧
      (now ≤ r0.expiresAt → code ≠ r0.code →
        (verifyOTP st now email p code).1 = VerificationResult.Invalid) ∧
      (now ≤ r0.expiresAt → code = r0.code →
        (verifyOTP st now email p code).1 = VerificationResult.Valid ∧
        ∀ now2, (verifyOTP (verifyOTP st now email p code).2 now2 email p code).1 =
          VerificationResult.NotFound)) := by
  constructor
  · intro hnone
    simp [verifyOTP, hnone]
  · intro r0 hsome
    refine ⟨?_, ?_, ?_⟩
    · intro hexp
      simp [verifyOTP, hsome, hexp]
    · intro hfresh hne
      simp only [verifyOTP, hsome]
      rw [if_neg (by omega), if_neg hne]
    · intro hfresh heq
      have hval : verifyOTP st now email p code =
          (VerificationResult.Valid, fun k => if k = (email, p) then none else st k) := by
        simp only [verifyOTP, hsome]
        rw [if_neg (by omega), if_pos heq]
      refine ⟨by rw [hval], ?_⟩
      intro now2
      rw [hval]
      simp [verifyOTP]

/-- Concrete instantiation mirroring the spec scenario: issuing code 482913
for login at time 0, verifying it at time 60 yields Valid, and repeating the
same verification yields NotFound. -/
theorem otp_verify_cases_witness :
    (verifyOTP (issueOTP otpEmpty "a@b.com" OtpPurpose.login "482913" 0)
      60 "a@b.com" OtpPurpose.login "482913").1 = VerificationResult.Valid ∧
    (verifyOTP (verifyOTP (issueOTP otpEmpty "a@b.com" OtpPurpose.login "482913" 0)
      60 "a@b.com" OtpPurpose.login "482913").2
      60 "a@b.com" OtpPurpose.login "482913").1 = VerificationResult.NotFound := by
  have h := (otp_verify_cases (issueOTP otpEmpty "a@b.com" OtpPurpose.login "482913" 0)
    60 "a@b.com" OtpPurpose.login "482913").2
    ⟨"482913", 300, OtpPurpose.login⟩ (by decide)
  have h2 := h.2.2 (by decide) (by decide)
  exact ⟨h2.1, h2.2 60⟩

/-- C4: issuing a second code for the same pair supersedes the first record
entirely: the pair maps to the second record alone, the first code is never
Valid afterwards at any time, and inside the original expiry window of the
first code, with the second issuance not earlier than the first, verifying
the first code yields Invalid or NotFound. The two generated codes are
assumed distinct, as issuance generates a new code. -/
theorem otp_supersede (st : OTPStore) (email : String) (p : OtpPurpose)
    (c1 c2 : String) (t1 t2 : Nat) (hne : c1 ≠ c2) :
    issueOTP (issueOTP st email p c1 t1) email p c2 t2 (email, p) =
      some ⟨c2, t2 + otpExpiry p, p⟩ ∧
    (∀ now, (verifyOTP (issueOTP (issueOTP st email p c1 t1) email p c2 t2)
      now email p c1).1 ≠ VerificationResult.Valid) ∧
    (∀ now, t1 ≤ t2 → now ≤ t1 + otpExpiry p →
      (verifyOTP (issueOTP (issueOTP st email p c1 t1) email p c2 t2)
        now email p c1).1 = VerificationResult.Invalid ∨
      (verifyOTP (issueOTP (issueOTP st email p c1 t1) email p c2 t2)
        now email p c1).1 = VerificationResult.NotFound) := by
  have hlook : issueOTP (issueOTP st email p c1 t1) email p c2 t2 (email, p) =
      some ⟨c2, t2 + otpExpiry p, p⟩ := by
    simp [issueOTP]
  refine ⟨hlook, ?_, ?_⟩
  · intro now
    simp only [verifyOTP, hlook]
    by_cases hexp : now > t2 + otpExpiry p
    · rw [if_pos hexp]
      simp
    · rw [if_neg hexp, if_neg hne]
      simp
  · intro now hle hwin
    left
    simp only [verifyOTP, hlook]
    rw [if_neg (by omega : ¬ now > t2 + otpExpiry p), if_neg hne]

/-- Concrete instantiation of supersession: after issuing code 111111 and
then code 222222 for the same pair, verifying the first code inside its own
original window yields Invalid, never Valid. -/
theorem otp_supersede_witness :
    (verifyOTP (issueOTP (issueOTP otpEmpty "a@b.com" OtpPurpose.login "111111" 0)
      "a@b.com" OtpPurpose.login "222222" 10) 60 "a@b.com" OtpPurpose.login "111111").1 ≠
      VerificationResult.Valid ∧
    ((verifyOTP (issueOTP (issueOTP otpEmpty "a@b.com" OtpPurpose.login "111111" 0)
      "a@b.com" OtpPurpose.login "222222" 10) 60 "a@b.com" OtpPurpose.login "111111").1 =
      VerificationResult.Invalid ∨
     (verifyOTP (issueOTP (issueOTP otpEmpty "a@b.com" OtpPurpose.login "111111" 0)
      "a@b.com" OtpPurpose.login "222222" 10) 60 "a@b.com" OtpPurpose.login "111111").1 =
      VerificationResult.NotFound) := by
  have h := otp_supersede otpEmpty "a@b.com" OtpPurpose.login "111111" "222222" 0 10
    (by decide)
  exact ⟨h.2.1 60, h.2.2 60 (by decide) (by decide)⟩

deriving instance DecidableEq for Except

/-- Embedding of the request-scoped context values that the middleware
package reads with Value: the three identity keys user id, email and role,
each either attached with a string value or absent. -/
structure Ctx where
  user_id : Option String
  email : Option String
  role : Option String
deriving DecidableEq

/-- The context of a request on which no identity was ever attached. -/
def ctxEmpty : Ctx := ⟨none, none, none⟩

/-- Embedding of GetUserIDFromContext: the type assertion fails when the key
is absent, and an empty string is also rejected; otherwise the attached
value is returned. -/
def GetUserIDFromContext (c : Ctx) : Except String String :=
  match c.user_id with
  | some s => if s = "" then Except.error "user ID not found in context" else Except.ok s
  | none => Except.error "user ID not found in context"

/-- Embedding of GetUserEmailFromContext. -/
def GetUserEmailFromContext (c : Ctx) : Except String String :=
  match c.email with
  | some s => if s = "" then Except.error "email not found in context" else Except.ok s
  | none => Except.error "email not found in context"

/-- Embedding of GetUserRoleFromContext. -/
def GetUserRoleFromContext (c : Ctx) : Except String String :=
  match c.role with
  | some s => if s = "" then Except.error "role not found in context" else Except.ok s
  | none => Except.error "role not found in context"

/-- Embedding of the Claims payload produced by crypto.ValidateToken: the
decoded subject id, email and role. -/
structure Claims where
  sub : String
  email : String
  role : String
deriving DecidableEq

/-- Helper for strings.SplitN with separator one space and n equal to two:
splits a character list at the first space, returning the parts before and
after it, or none when no space occurs. -/
def splitChars : List Char → Option (List Char × List Char)
  | [] => none
  | ch :: rest =>
    if ch = ' ' then some ([], rest)
    else
      match splitChars rest with
      | none => none
      | some pr => some (ch :: pr.1, pr.2)

/-- Embedding of strings.SplitN applied with separator one space and n two:
a string with no space yields a single part, otherwise the parts before and
after the first space. -/
def splitN2 (s : String) : List String :=
  match splitChars s.data with
  | none => [s]
  | some pr => [String.mk pr.1, String.mk pr.2]

theorem splitChars_sound (cs : List Char) :
    ∀ l r, splitChars cs = some (l, r) → cs = l ++ ' ' :: r := by
  induction cs with
  | nil => intro l r h; simp [splitChars] at h
  | cons ch rest ih =>
    intro l r h
    by_cases hc : ch = ' '
    · subst hc
      have h2 := Option.some.inj h
      have hl : l = [] := (congrArg Prod.fst h2).symm
      have hr : r = rest := (congrArg Prod.snd h2).symm
      subst hl
      subst hr
      simp
    · simp only [splitChars, if_neg hc] at h
      cases hsr : splitChars rest with
      | none => rw [hsr] at h; simp at h
      | some pr =>
        rw [hsr] at h
        have h2 := Option.some.inj h
        have hl : l = ch :: pr.1 := (congrArg Prod.fst h2).symm
        have hr : r = pr.2 := (congrArg Prod.snd h2).symm
        subst hl
        subst hr
        have hre := ih pr.1 pr.2 (by rw [hsr])
        simp [hre]

theorem string_mk_data (s : String) : String.mk s.data = s := by
  cases s
  rfl

theorem string_data_append (a b : String) : (a ++ b).data = a.data ++ b.data := by
  cases a
  cases b
  rfl

theorem splitChars_bearer (t : String) :
    splitChars ('B' :: 'e' :: 'a' :: 'r' :: 'e' :: 'r' :: ' ' :: t.data) =
      some (['B', 'e', 'a', 'r', 'e', 'r'], t.data) := rfl

theorem splitN2_bearer (t : String) : splitN2 ("Bearer " ++ t) = ["Bearer", t] := by
  have hdata : ("Bearer " ++ t).data =
      'B' :: 'e' :: 'a' :: 'r' :: 'e' :: 'r' :: ' ' :: t.data := by
    rw [string_data_append]
    rfl
  unfold splitN2
  rw [hdata, splitChars_bearer]

/-- Embedding of AuthMiddleware from the primary middleware package: reject
with 401 when the header is empty, when splitting on the first space does
not give exactly two parts, when the scheme part is not Bearer, when the
token part is empty, or when token validation fails; otherwise invoke the
wrapped handler with the request unchanged, so in particular with its
context unchanged. The token validator is a parameter standing for
crypto.ValidateToken, whose source is not under src. -/
def AuthMiddleware (validate : String → Option Claims) (authHeader : String)
    (c : Ctx) : HandlerResult Ctx :=
  if authHeader = "" then
    HandlerResult.errorResp (respondError 401 "Authorization header is required")
  else
    match splitN2 authHeader with
    | [p0, p1] =>
      if p0 ≠ "Bearer" then
        HandlerResult.errorResp (respondError 401 "Invalid authorization type. Expected: Bearer")
      else if p1 = "" then
        HandlerResult.errorResp (respondError 401 "Token is required")
      else
        match validate p1 with
        | none => HandlerResult.errorResp (respondError 401 "Invalid or expired token")
        | some _ => HandlerResult.next c
    | _ =>
      HandlerResult.errorResp
        (respondError 401 "Invalid authorization format. Use: Bearer <token>")

/-- Embedding of RoleMiddleware from the primary middleware package: reads
the role from the request context, rejects with 401 when it is absent,
rejects with 403 when it is not among the allowed roles, and otherwise
invokes the wrapped handler; the for-loop membership test over the allowed
roles is List.contains. -/
def RoleMiddleware (allowedRoles : List String) (c : Ctx) : HandlerResult Ctx :=
  match GetUserRoleFromContext c with
  | Except.error _ =>
    HandlerResult.errorResp (respondError 401 "Role not found in token")
  | Except.ok role =>
    if allowedRoles.contains role then HandlerResult.next c
    else
      HandlerResult.errorResp (respondError 403 "Insufficient permissions for this action")

theorem contains_iff_mem_str (l : List String) (s : String) :
    l.contains s = true ↔ s ∈ l := List.elem_iff

theorem splitN2_two (s a b : String) (h : splitN2 s = [a, b]) : s = a ++ " " ++ b := by
  unfold splitN2 at h
  cases hsr : splitChars s.data with
  | none => rw [hsr] at h; simp at h
  | some pr =>
    rw [hsr] at h
    have h2 : String.mk pr.1 = a ∧ String.mk pr.2 = b := by
      have hh := h
      simp only [List.cons.injEq, and_true] at hh
      exact ⟨hh.1, hh.2⟩
    have hsound := splitChars_sound s.data pr.1 pr.2 (by rw [hsr])
    have h3 : s = String.mk (pr.1 ++ ' ' :: pr.2) := by
      rw [← string_mk_data s, hsound]
    rw [h3, ← h2.1, ← h2.2]
    have h4 : String.mk pr.1 ++ " " ++ String.mk pr.2 =
        String.mk ((pr.1 ++ [' ']) ++ pr.2) := rfl
    rw [h4]
    have h5 : (pr.1 ++ [' ']) ++ pr.2 = pr.1 ++ ' ' :: pr.2 := by simp
    rw [h5]

/-- C3: for every protected request whose authorization header is not exactly
the scheme Bearer followed by a space and a nonempty token accepted by the
token verifier, the auth middleware stops with a 401 error envelope and does
not invoke the protected operation. The hypothesis covers the absent header,
a malformed scheme, an empty token, and a token the verifier rejects. -/
theorem auth_guard_unauthenticated (validate : String → Option Claims)
    (authHeader : String) (c : Ctx)
    (hbad : ∀ t, authHeader = "Bearer " ++ t → t = "" ∨ validate t = none) :
    ∃ e, AuthMiddleware validate authHeader c = HandlerResult.errorResp e ∧
      e.code = 401 := by
  unfold AuthMiddleware
  by_cases hh : authHeader = ""
  · rw [if_pos hh]
    exact ⟨_, rfl, rfl⟩
  · rw [if_neg hh]
    cases hsp : splitN2 authHeader with
    | nil => exact ⟨_, rfl, rfl⟩
    | cons p0 rest =>
      cases rest with
      | nil => exact ⟨_, rfl, rfl⟩
      | cons p1 rest2 =>
        cases rest2 with
        | cons x xs => exact ⟨_, rfl, rfl⟩
        | nil =>
          by_cases hb : p0 ≠ "Bearer"
          · exact ⟨respondError 401 "Invalid authorization type. Expected: Bearer",
              by simp [hb], rfl⟩
          · push_neg at hb
            subst hb
            have hform : authHeader = "Bearer " ++ p1 := by
              have := splitN2_two authHeader "Bearer" p1 hsp
              simpa using this
            rcases hbad p1 hform with hp1 | hv
            · exact ⟨respondError 401 "Token is required", by simp [hp1], rfl⟩
            · by_cases hp1 : p1 = ""
              · exact ⟨respondError 401 "Token is required", by simp [hp1], rfl⟩
              · exact ⟨respondError 401 "Invalid or expired token",
                  by simp [hp1, hv], rfl⟩

/-- A token verifier that rejects every token. -/
def validateNone : String → Option Claims := fun _ => none

/-- Concrete instantiation: a request with the malformed header Basic abc is
rejected with a 401 envelope. -/
theorem auth_guard_unauthenticated_witness :
    ∃ e, AuthMiddleware validateNone "Basic abc" ctxEmpty = HandlerResult.errorResp e ∧
      e.code = 401 := by
  apply auth_guard_unauthenticated
  intro t ht
  right
  rfl

/-- C5: given a request context carrying a nonempty role, the role middleware
stops with the 403 forbidden envelope when the role is not a member of the
allowed set, and invokes the protected operation when it is a member. -/
theorem role_guard (allowedRoles : List String) (c : Ctx) (r0 : String)
    (hattached : c.role = some r0) (hne : r0 ≠ "") :
    (r0 ∉ allowedRoles →
      RoleMiddleware allowedRoles c =
        HandlerResult.errorResp
          (respondError 403 "Insufficient permissions for this action")) ∧
    (r0 ∈ allowedRoles → RoleMiddleware allowedRoles c = HandlerResult.next c) := by
  have hrole : GetUserRoleFromContext c = Except.ok r0 := by
    simp [GetUserRoleFromContext, hattached, hne]
  constructor
  · intro hnotin
    simp only [RoleMiddleware, hrole]
    rw [if_neg (fun hcon => hnotin ((contains_iff_mem_str allowedRoles r0).mp hcon))]
  · intro hin
    simp only [RoleMiddleware, hrole]
    rw [if_pos ((contains_iff_mem_str allowedRoles r0).mpr hin)]

/-- Concrete instantiation: a farmer role is rejected with 403 on an
admin-only operation and admitted on a farmer-allowed operation. -/
theorem role_guard_witness :
    RoleMiddleware ["admin"] ⟨none, none, some "farmer"⟩ =
      HandlerResult.errorResp
        (respondError 403 "Insufficient permissions for this action") ∧
    RoleMiddleware ["farmer", "admin"] ⟨none, none, some "farmer"⟩ =
      HandlerResult.next ⟨none, none, some "farmer"⟩ := by
  constructor
  · exact (role_guard ["admin"] ⟨none, none, some "farmer"⟩ "farmer" rfl
      (by decide)).1 (by decide)
  · exact (role_guard ["farmer", "admin"] ⟨none, none, some "farmer"⟩ "farmer" rfl
      (by decide)).2 (by decide)

/-- C6 code divergence: on a successfully validated bearer token the auth
middleware invokes the protected operation with the request context
unchanged; the decoded claims are discarded, so on a request whose context
never carried an identity all three context accessors still fail inside the
protected operation. -/
theorem auth_guard_drops_claims (validate : String → Option Claims) (t : String)
    (cl : Claims) (ht : t ≠ "") (hv : validate t = some cl) :
    AuthMiddleware validate ("Bearer " ++ t) ctxEmpty = HandlerResult.next ctxEmpty ∧
    GetUserIDFromContext ctxEmpty = Except.error "user ID not found in context" ∧
    GetUserEmailFromContext ctxEmpty = Except.error "email not found in context" ∧
    GetUserRoleFromContext ctxEmpty = Except.error "role not found in context" := by
  have hne : ("Bearer " ++ t) ≠ "" := by
    intro hcon
    have hd := congrArg String.data hcon
    rw [string_data_append] at hd
    simp at hd
  refine ⟨?_, rfl, rfl, rfl⟩
  unfold AuthMiddleware
  rw [if_neg hne, splitN2_bearer]
  simp [ht, hv]

/-- A token verifier accepting exactly the token tok with fixed claims. -/
def validateStub : String → Option Claims :=
  fun t => if t = "tok" then some ⟨"u1", "u@x.com", "farmer"⟩ else none

/-- Concrete instantiation: a valid bearer token passes the auth middleware
yet the handler receives the untouched empty context and every accessor
fails. -/
theorem auth_guard_drops_claims_witness :
    AuthMiddleware validateStub ("Bearer " ++ "tok") ctxEmpty =
      HandlerResult.next ctxEmpty ∧
    GetUserIDFromContext ctxEmpty = Except.error "user ID not found in context" ∧
    GetUserEmailFromContext ctxEmpty = Except.error "email not found in context" ∧
    GetUserRoleFromContext ctxEmpty = Except.error "role not found in context" :=
  auth_guard_drops_claims validateStub "tok" ⟨"u1", "u@x.com", "farmer"⟩
    (by decide) (by decide)

/-- C8 amended: each context accessor fails with an explicit error when its
identity field was never attached, and also when it was attached as the
empty string; it returns exactly the attached value whenever that value is
nonempty. -/
theorem context_accessors_explicit (c : Ctx) :
    (c.user_id = none →
      GetUserIDFromContext c = Except.error "user ID not found in context") ∧
    (∀ v, c.user_id = some v → v ≠ "" → GetUserIDFromContext c = Except.ok v) ∧
    (c.email = none →
      GetUserEmailFromContext c = Except.error "email not found in context") ∧
    (∀ v, c.email = some v → v ≠ "" → GetUserEmailFromContext c = Except.ok v) ∧
    (c.role = none →
      GetUserRoleFromContext c = Except.error "role not found in context") ∧
    (∀ v, c.role = some v → v ≠ "" → GetUserRoleFromContext c = Except.ok v) :=
  ⟨fun h => by simp [GetUserIDFromContext, h],
   fun v hv hne => by simp [GetUserIDFromContext, hv, hne],
   fun h => by simp [GetUserEmailFromContext, h],
   fun v hv hne => by simp [GetUserEmailFromContext, hv, hne],
   fun h => by simp [GetUserRoleFromContext, h],
   fun v hv hne => by simp [GetUserRoleFromContext, hv, hne]⟩

/-- Concrete instantiation: on the empty context the user id accessor fails
explicitly, and on a context carrying the role farmer the role accessor
returns it. -/
theorem context_accessors_explicit_witness :
    GetUserIDFromContext ctxEmpty = Except.error "user ID not found in context" ∧
    GetUserRoleFromContext ⟨none, none, some "farmer"⟩ = Except.ok "farmer" :=
  ⟨(context_accessors_explicit ctxEmpty).1 rfl,
   (context_accessors_explicit ⟨none, none, some "farmer"⟩).2.2.2.2.2 "farmer" rfl
     (by decide)⟩

/-- C8 counterexample: a context whose role field is attached as the empty
string refutes the claim that an attached field is always returned by its
accessor: the accessor rejects the attached empty value instead of
returning it. -/
theorem context_accessor_empty_attached :
    Ctx.role ⟨none, none, some ""⟩ = some "" ∧
    GetUserRoleFromContext ⟨none, none, some ""⟩ ≠ Except.ok "" := by
  constructor
  · rfl
  · decide

/-- A minimal JSON value for describing encoded envelope fields. -/
inductive JsonValue where
  | jstr : String → JsonValue
  | jnum : Nat → JsonValue
  | jbool : Bool → JsonValue
deriving DecidableEq

/-- A JSON object as an ordered field list. -/
abbrev JsonObject := List (String × JsonValue)

/-- JSON encoding of the ErrorResponse envelope: the error and code fields
are always present, the message field carries the omitempty tag and is
dropped when empty. -/
def encodeErrorResponse (e : ErrorResponse) : JsonObject :=
  [("error", JsonValue.jstr e.error)] ++
    (if e.message = "" then [] else [("message", JsonValue.jstr e.message)]) ++
    [("code", JsonValue.jnum e.code)]

/-- Modelled from the spec: the v1.Response success envelope with a success
flag, a message and an optional data slot; the struct declaration itself is
not under src, only its use sites and the spec wire shape. -/
structure V1Response where
  success : Bool
  message : String
  data : Option JsonValue
deriving DecidableEq

/-- JSON encoding of the v1.Response envelope, message and data dropped when
empty or absent. -/
def encodeV1Response (r0 : V1Response) : JsonObject :=
  [("success", JsonValue.jbool r0.success)] ++
    (if r0.message = "" then [] else [("message", JsonValue.jstr r0.message)]) ++
    (match r0.data with
     | none => []
     | some v => [("data", v)])

/-- Embedding of respondError from the secondary middleware package, which
encodes a v1.Response with success false and the message, writing the status
only to the HTTP header: the envelope itself carries no error and no code
field. -/
def respondErrorWE (status : Nat) (message : String) : Nat × V1Response :=
  (status, ⟨false, message, none⟩)

/-- The error kinds of the taxonomy with their status codes as found at the
call sites: 429 in RateLimitMiddleware, 401 in AuthMiddleware, 403 in
RoleMiddleware, 400 at the malformed-body handler call sites. -/
inductive ErrKind where
  | RateLimited
  | Unauthenticated
  | Forbidden
  | InvalidRequest
deriving DecidableEq

/-- The status code mapping for the error taxonomy, total by construction. -/
def statusOfKind : ErrKind → Nat
  | ErrKind.RateLimited => 429
  | ErrKind.Unauthenticated => 401
  | ErrKind.Forbidden => 403
  | ErrKind.InvalidRequest => 400

/-- C7 counterexample: the same failure rendered by the two respondError
implementations does not share one wire envelope shape: the secondary
implementation omits both the error and the code field that the claimed
single shape requires, as the concrete 401 failure shows. -/
theorem error_envelope_not_single_shape :
    (encodeV1Response (respondErrorWE 401 "Authorization header is required").2).lookup
      "code" = none ∧
    (encodeV1Response (respondErrorWE 401 "Authorization header is required").2).lookup
      "error" = none ∧
    (encodeErrorResponse (respondError 401 "Authorization header is required")).lookup
      "code" = some (JsonValue.jnum 401) ∧
    encodeV1Response (respondErrorWE 401 "Authorization header is required").2 ≠
      encodeErrorResponse (respondError 401 "Authorization header is required") := by
  refine ⟨?_, ?_, ?_, ?_⟩ <;> decide

/-- C7 amended: failures rendered through the primary middleware respondError
use the envelope with exactly the fields error, message and code, omit any
payload slot, and carry a code equal to the HTTP status; the kind-to-status
mapping is deterministic and total with RateLimited to 429, Unauthenticated
to 401, Forbidden to 403 and InvalidRequest to 400; the secondary middleware
package instead renders failures in the success envelope with success false
and no code field. -/
theorem error_envelope_mapping (k : ErrKind) (m : String) (hm : m ≠ "") :
    (respondError (statusOfKind k) m).code = statusOfKind k ∧
    (respondError (statusOfKind k) m).message = m ∧
    (encodeErrorResponse (respondError (statusOfKind k) m)).map Prod.fst =
      ["error", "message", "code"] ∧
    (encodeErrorResponse (respondError (statusOfKind k) m)).lookup "data" = none ∧
    statusOfKind ErrKind.RateLimited = 429 ∧
    statusOfKind ErrKind.Unauthenticated = 401 ∧
    statusOfKind ErrKind.Forbidden = 403 ∧
    statusOfKind ErrKind.InvalidRequest = 400 ∧
    (respondErrorWE (statusOfKind k) m).1 = statusOfKind k ∧
    (encodeV1Response (respondErrorWE (statusOfKind k) m).2).lookup "code" = none ∧
    (encodeV1Response (respondErrorWE (statusOfKind k) m).2).head? =
      some ("success", JsonValue.jbool false) := by
  refine ⟨rfl, rfl, ?_, ?_, rfl, rfl, rfl, rfl, rfl, ?_, rfl⟩
  · simp [encodeErrorResponse, respondError, hm]
  · simp [encodeErrorResponse, respondError, hm, List.lookup]
  · simp [encodeV1Response, respondErrorWE, hm, List.lookup]

/-- Concrete instantiation of the envelope mapping at the rate limiter
message. -/
theorem error_envelope_mapping_witness :
    (respondError (statusOfKind ErrKind.RateLimited)
      "Rate limit exceeded. Please try again later.").code = 429 ∧
    (encodeErrorResponse (respondError (statusOfKind ErrKind.RateLimited)
      "Rate limit exceeded. Please try again later.")).map Prod.fst =
      ["error", "message", "code"] := by
  have h := error_envelope_mapping ErrKind.RateLimited
    "Rate limit exceeded. Please try again later." (by decide)
  exact ⟨h.1, h.2.2.1⟩

/-- One thread of the lost-update model of RateLimitMiddleware under
concurrent requests from the same client in one window: the Go handler body
first loads the shared counter for the limit check and then performs the
non-atomic increment; the model collapses this to an atomic load of the
counter into a local register followed by an atomic conditional
store of the incremented local value, a subset of the interleavings the
unsynchronized Go code admits. -/
structure ThreadSt where
  regval : Option Nat
  result : Option Bool
deriving DecidableEq

/-- The initial thread state: nothing loaded, no decision taken. -/
def threadInit : ThreadSt := ⟨none, none⟩

/-- One atomic step of a thread: load the shared counter, then either reject
when the loaded value has reached the limit or store the incremented value
and admit; a finished thread leaves the state unchanged. -/
def threadStep (limit : Nat) (shared : Nat) (t : ThreadSt) : Nat × ThreadSt :=
  match t.regval, t.result with
  | none, _ => (shared, ⟨some shared, none⟩)
  | some r, none =>
    if r ≥ limit then (shared, ⟨some r, some false⟩)
    else (r + 1, ⟨some r, some true⟩)
  | some _, some _ => (shared, t)

/-- Run a schedule over two threads sharing the counter: true schedules the
first thread for one atomic step, false the second. -/
def runSched (limit : Nat) : List Bool → Nat × ThreadSt × ThreadSt → Nat × ThreadSt × ThreadSt
  | [], s => s
  | b :: rest, (sh, tA, tB) =>
    if b then
      let p := threadStep limit sh tA
      runSched limit rest (p.1, p.2, tB)
    else
      let p := threadStep limit sh tB
      runSched limit rest (p.1, tA, p.2)

/-- C9: the unsynchronized counter admits a lost update. With limit one and
both counters starting at zero, the interleaving that lets both threads load
before either stores ends with both requests admitted and the shared counter
at one: two admitted calls increased the count by one, not two, and more
than limit requests were admitted in a single window. -/
theorem rateLimit_lost_update :
    (runSched 1 [true, false, true, false] (0, threadInit, threadInit)).1 = 1 ∧
    (runSched 1 [true, false, true, false] (0, threadInit, threadInit)).2.1.result =
      some true ∧
    (runSched 1 [true, false, true, false] (0, threadInit, threadInit)).2.2.result =
      some true := by
  refine ⟨?_, ?_, ?_⟩ <;> rfl

/-- Embedding of the response object a Go http.Request carries in its
Response field, which is populated only on client-side responses. -/
structure HttpResponse where
  statusCode : Nat
deriving DecidableEq

/-- Embedding of the part of the inbound request HealthHandler reads: the
Response field, nil for every server-side inbound request. -/
structure HealthRequest where
  response : Option HttpResponse
deriving DecidableEq

/-- The body HealthHandler intends to encode. -/
structure HealthBody where
  status : String
  version : String
  description : String
  uptime : String
deriving DecidableEq

/-- Embedding of HealthHandler: it dereferences the Response field of the
inbound request to read StatusCode before encoding the body; a nil Response
is a nil-pointer dereference, modelled as an error outcome, and the uptime
field is the duration since now, zero. -/
def HealthHandler (r0 : HealthRequest) : Except String HealthBody :=
  match r0.response with
  | none => Except.error "runtime error: invalid memory address or nil pointer dereference"
  | some resp =>
    Except.ok ⟨statusText resp.statusCode, "1.0.0", "Service is healthy", "0s"⟩

/-- C10: on every server-side inbound request the Response field is nil, so
HealthHandler reaches the nil-pointer dereference and never produces the
documented health body. -/
theorem health_handler_nil_deref (r0 : HealthRequest) (hr : r0.response = none) :
    HealthHandler r0 =
      Except.error "runtime error: invalid memory address or nil pointer dereference" ∧
    ∀ b, HealthHandler r0 ≠ Except.ok b := by
  constructor
  · simp [HealthHandler, hr]
  · intro b hcon
    rw [show HealthHandler r0 = Except.error
      "runtime error: invalid memory address or nil pointer dereference"
      from by simp [HealthHandler, hr]] at hcon
    exact Except.noConfusion hcon

/-- Concrete instantiation: the inbound request with nil Response makes
HealthHandler fail. -/
theorem health_handler_nil_deref_witness :
    HealthHandler ⟨none⟩ =
      Except.error "runtime error: invalid memory address or nil pointer dereference" :=
  (health_handler_nil_deref ⟨none⟩ rfl).1
